import Mathlib

/-!
Verification of the form-scanner pipeline (`services/gemini.service.js` and the
HTML-fetcher service of the same repository) against its natural-language
specification.  The JavaScript is shallowly embedded: network calls become
explicit oracle functions, JavaScript numbers become `ℚ` (with the division-
by-zero special values `NaN` / `Infinity` modelled by `JsNum`), and the two
platform builtins the code relies on (`JSON.parse` and the WHATWG `URL`
constructor) are modelled by executable Lean functions that are faithful on
every input exercised in this development.
-/

/-- JSON values, as produced by the platform `JSON.parse` builtin.  Numbers are
kept as exact rationals (the IEEE-754 rounding that `JSON.parse` applies to
decimal literals is not modelled; every number exercised here is a small
integer, on which the two agree). -/
inductive Json where
  | null
  | bool (b : Bool)
  | num (q : ℚ)
  | str (s : String)
  | arr (elems : List Json)
  | obj (members : List (String × Json))

/-- Decimal value of a digit run. -/
def digitsVal (l : List Char) : Nat :=
  l.foldl (fun a c => a * 10 + (c.toNat - 48)) 0

/-- Hexadecimal digit value (for `\uXXXX` escapes). -/
def hexVal (c : Char) : Option Nat :=
  if c.isDigit then some (c.toNat - 48)
  else if 'a' ≤ c ∧ c ≤ 'f' then some (c.toNat - 87)
  else if 'A' ≤ c ∧ c ≤ 'F' then some (c.toNat - 55)
  else none

/-- JSON insignificant whitespace. -/
def skipWs (s : List Char) : List Char :=
  s.dropWhile (fun c => c = ' ' ∨ c = '\t' ∨ c = '\n' ∨ c = '\r')

/-- Body of a JSON string after the opening quote: returns the decoded
characters and the input remaining after the closing quote.  Models the
escape sequences accepted by `JSON.parse`; fuelled for termination. -/
def parseStringBody : Nat → List Char → Option (List Char × List Char)
  | 0, _ => none
  | _, [] => none
  | fuel + 1, c :: rest =>
    if c = '"' then some ([], rest)
    else if c = '\\' then
      match rest with
      | [] => none
      | e :: rest2 =>
        let dec : Option (Char × List Char) :=
          if e = '"' then some ('"', rest2)
          else if e = '\\' then some ('\\', rest2)
          else if e = '/' then some ('/', rest2)
          else if e = 'b' then some ('\x08', rest2)
          else if e = 'f' then some ('\x0c', rest2)
          else if e = 'n' then some ('\n', rest2)
          else if e = 'r' then some ('\r', rest2)
          else if e = 't' then some ('\t', rest2)
          else if e = 'u' then
            match rest2 with
            | h1 :: h2 :: h3 :: h4 :: rest3 =>
              match hexVal h1, hexVal h2, hexVal h3, hexVal h4 with
              | some a, some b, some c2, some d =>
                some (Char.ofNat (((a * 16 + b) * 16 + c2) * 16 + d), rest3)
              | _, _, _, _ => none
            | _ => none
          else none
        match dec with
        | some (ch, r) => (parseStringBody fuel r).map (fun p => (ch :: p.1, p.2))
        | none => none
    else if c.toNat < 32 then none
    else (parseStringBody fuel rest).map (fun p => (c :: p.1, p.2))

/-- A JSON number token (sign, integer part, optional fraction, optional
exponent), returned as an exact rational together with the rest of the
input.  `JSON.parse` rejects leading zeros and missing digits exactly as
encoded here. -/
def parseNumber (s : List Char) : Option (ℚ × List Char) :=
  let signed : Bool × List Char := match s with
    | '-' :: r => (true, r)
    | _ => (false, s)
  let intPart := signed.2.takeWhile Char.isDigit
  if intPart = [] then none
  else if 1 < intPart.length ∧ intPart.head? = some '0' then none
  else
    let s2 := signed.2.drop intPart.length
    let fracStep : Option (List Char × List Char) := match s2 with
      | '.' :: r =>
        let fd := r.takeWhile Char.isDigit
        if fd = [] then none else some (fd, r.drop fd.length)
      | _ => some ([], s2)
    match fracStep with
    | none => none
    | some (fracDigits, s3) =>
      let expStep : Option (Int × List Char) := match s3 with
        | 'e' :: r => some (0, r)
        | 'E' :: r => some (0, r)
        | _ => some (1, s3)
      match expStep with
      | none => none
      | some (tag, s4) =>
        if tag = 1 then
          let mag : ℚ :=
            if fracDigits = [] then (digitsVal intPart : ℚ)
            else (digitsVal intPart : ℚ) +
              (digitsVal fracDigits : ℚ) / ((10 : ℚ) ^ fracDigits.length)
          some (if signed.1 then -mag else mag, s4)
        else
          let esigned : Bool × List Char := match s4 with
            | '+' :: r => (false, r)
            | '-' :: r => (true, r)
            | _ => (false, s4)
          let ed := esigned.2.takeWhile Char.isDigit
          if ed = [] then none
          else
            let e : Int := if esigned.1 then -(digitsVal ed : Int) else (digitsVal ed : Int)
            let mag : ℚ := ((digitsVal intPart : ℚ) +
              (digitsVal fracDigits : ℚ) / ((10 : ℚ) ^ fracDigits.length)) * (10 : ℚ) ^ e
            some (if signed.1 then -mag else mag, esigned.2.drop ed.length)

mutual

/-- One JSON value starting at the (whitespace-skipped) head of the input;
models the recursive-descent grammar of `JSON.parse`.  Fuelled. -/
def parseValue : Nat → List Char → Option (Json × List Char)
  | 0, _ => none
  | fuel + 1, s =>
    match skipWs s with
    | [] => none
    | 'n' :: rest =>
      if ['u', 'l', 'l'].isPrefixOf rest then some (.null, rest.drop 3) else none
    | 't' :: rest =>
      if ['r', 'u', 'e'].isPrefixOf rest then some (.bool true, rest.drop 3) else none
    | 'f' :: rest =>
      if ['a', 'l', 's', 'e'].isPrefixOf rest then some (.bool false, rest.drop 4) else none
    | '"' :: rest =>
      (parseStringBody (rest.length + 1) rest).map (fun p => (.str (String.mk p.1), p.2))
    | '[' :: rest => (parseElemsFirst fuel rest).map (fun p => (.arr p.1, p.2))
    | '\x7b' :: rest => (parseMembersFirst fuel rest).map (fun p => (.obj p.1, p.2))
    | c :: rest =>
      if c = '-' ∨ c.isDigit then
        (parseNumber (c :: rest)).map (fun p => (.num p.1, p.2))
      else none

/-- Array elements, where the closing bracket may come immediately. -/
def parseElemsFirst : Nat → List Char → Option (List Json × List Char)
  | 0, _ => none
  | fuel + 1, s =>
    match skipWs s with
    | ']' :: rest => some ([], rest)
    | s' => parseElemsMore fuel s'

/-- Array elements after at least one is required (no trailing comma). -/
def parseElemsMore : Nat → List Char → Option (List Json × List Char)
  | 0, _ => none
  | fuel + 1, s =>
    match parseValue fuel s with
    | none => none
    | some (v, rest) =>
      match skipWs rest with
      | ',' :: rest2 => (parseElemsMore fuel rest2).map (fun p => (v :: p.1, p.2))
      | ']' :: rest2 => some ([v], rest2)
      | _ => none

/-- Object members, where the closing brace may come immediately. -/
def parseMembersFirst : Nat → List Char → Option (List (String × Json) × List Char)
  | 0, _ => none
  | fuel + 1, s =>
    match skipWs s with
    | '\x7d' :: rest => some ([], rest)
    | s' => parseMembersMore fuel s'

/-- Object members after at least one is required (no trailing comma). -/
def parseMembersMore : Nat → List Char → Option (List (String × Json) × List Char)
  | 0, _ => none
  | fuel + 1, s =>
    match skipWs s with
    | '"' :: rest =>
      match parseStringBody (rest.length + 1) rest with
      | none => none
      | some (key, rest2) =>
        match skipWs rest2 with
        | ':' :: rest3 =>
          match parseValue fuel rest3 with
          | none => none
          | some (v, rest4) =>
            match skipWs rest4 with
            | ',' :: rest5 =>
              (parseMembersMore fuel rest5).map (fun p => ((String.mk key, v) :: p.1, p.2))
            | '\x7d' :: rest5 => some ([(String.mk key, v)], rest5)
            | _ => none
        | _ => none
    | _ => none

end

/-- The platform `JSON.parse` builtin: one JSON value, optionally surrounded
by whitespace, and nothing else.  `none` models the `SyntaxError` throw. -/
def jsonParse (s : List Char) : Option Json :=
  match parseValue (4 * s.length + 4) s with
  | some (v, rest) => if skipWs rest = [] then some v else none
  | none => none

/-- Index of the first occurrence of `pat` as a contiguous sublist of `s`
(`none` when it does not occur).  Shared substring-search primitive for the
regular-expression models below. -/
def findSub (pat : List Char) : List Char → Option Nat
  | [] => if pat = [] then some 0 else none
  | c :: rest =>
    if pat.isPrefixOf (c :: rest) then some 0
    else (findSub pat rest).map (· + 1)

/-- First match of the fence regex with opening literal `openPat` and closing
literal `"\n" ++ three backticks` — i.e. of a JavaScript regex of the shape
`openPat([\s\S]*?)\n`-fence — returning the lazily-captured group.  The match
starts at the first occurrence of `openPat` and the lazy capture ends at the
first later occurrence of the closing literal, exactly the semantics of
`String.prototype.match` with a lazy quantifier. -/
def fenceCapture (openPat : String) (s : List Char) : Option (List Char) :=
  match findSub openPat.toList s with
  | none => none
  | some i =>
    let after := s.drop (i + openPat.length)
    match findSub "\n```".toList after with
    | none => none
    | some j => some (after.take j)

/-- Model of `result.text.match(/```json\n([\s\S]*?)\n```/) || result.text.match(/```\n([\s\S]*?)\n```/)`
from `extractForms` (gemini.service.js:114) and `generateFieldValues`
(gemini.service.js:152): the json-labelled fence is tried first, then any
fence. -/
def jsonFenceMatch (s : List Char) : Option (List Char) :=
  match fenceCapture "```json\n" s with
  | some cap => some cap
  | none => fenceCapture "```\n" s

/-- The JSON-extraction step shared by `extractForms` (gemini.service.js:114-122)
and `generateFieldValues` (gemini.service.js:152-159): if a fence regex
matched, `JSON.parse` the captured group, otherwise `JSON.parse` the entire
reply text.  `none` models the parse error that makes the operation fail. -/
def extractJson (text : String) : Option Json :=
  match jsonFenceMatch text.toList with
  | some cap => jsonParse cap
  | none => jsonParse text.toList

/-- Model of `String.prototype.startsWith`. -/
def strStarts (p s : String) : Bool :=
  p.toList.isPrefixOf s.toList

/-- One fetched-iframe record of `fetchWithIframes` (gemini.service.js:459-470):
on success `content` is the fetched body, on failure `content` is the empty
string and `error` the failure message. -/
structure IframeContent where
  src : String
  content : String
  success : Bool
  error : Option String
deriving DecidableEq

/-- The `stats` record of a `fetchWithIframes` result (gemini.service.js:482-486). -/
structure FetchStats where
  totalIframes : Nat
  successfulIframes : Nat
  failedIframes : Nat
deriving DecidableEq

/-- Result object of `fetchWithIframes`.  The zero-iframe branch of the source
returns an object with no `stats` key at all; that absence is modelled by
`stats = none`. -/
structure FetchResult where
  mainHtml : String
  iframes : List IframeContent
  combinedHtml : String
  stats : Option FetchStats
deriving DecidableEq

/-- The iframe separator line of `combineHtml` (gemini.service.js:560), for
1-based iframe number `n` and source `src`. -/
def ifrMarker (n : Nat) (src : String) : String :=
  "\n\n<!-- ========== IFRAME " ++ toString n ++ " CONTENT: " ++ src ++ " ========== -->\n\n"

/-- Embedding of `combineHtml` (gemini.service.js:554-566): starting from the main document,
append marker plus body for every iframe record whose fetch succeeded and
whose body is truthy (a non-empty string). -/
def combineHtml (mainHtml : String) (iframeContents : List IframeContent) : String :=
  (iframeContents.enum).foldl
    (fun combined p =>
      if p.2.success && p.2.content != "" then
        combined ++ ifrMarker (p.1 + 1) p.2.src ++ p.2.content
      else combined)
    mainHtml

/-- Model of `new URL(u).origin` of the WHATWG URL builtin, for the http(s)
locations this service fetches: scheme plus the authority that extends to the
first `/`, `?` or `#`.  `none` models the `TypeError` throw on an unparsable
location.  Declared gaps, none exercised by any input in this development:
WHATWG `.origin` additionally strips userinfo (here a `u:p@h` authority is
kept verbatim), lower-cases and IDNA-canonicalises the host, elides a default
port, and `new URL(u)` itself rejects a base whose host carries forbidden
code points — every base location appearing in a theorem below is a
well-formed userinfo-free http(s) URL, on which this model and the builtin
agree. -/
def urlOrigin (u : String) : Option String :=
  if strStarts "https://" u then
    let host := (u.toList.drop 8).takeWhile (fun c => c ≠ '/' ∧ c ≠ '?' ∧ c ≠ '#')
    if host = [] then none else some ("https://" ++ String.mk host)
  else if strStarts "http://" u then
    let host := (u.toList.drop 7).takeWhile (fun c => c ≠ '/' ∧ c ≠ '?' ∧ c ≠ '#')
    if host = [] then none else some ("http://" ++ String.mk host)
  else none

/-- Whether a location string begins with a URL scheme (letter followed by
letters, digits, `+`, `-` or `.`, then a colon). -/
def hasScheme (s : String) : Bool :=
  match s.toList with
  | [] => false
  | c :: rest =>
    c.isAlpha &&
      ((rest.dropWhile (fun d => d.isAlpha || d.isDigit || d = '+' || d = '-' || d = '.')).head?
        == some ':')

/-- Characters that terminate the authority component of a special (http(s))
URL reference. -/
def authTerm (c : Char) : Bool :=
  c = '/' || c = '?' || c = '#' || c = '\\'

/-- The forbidden host code points of the WHATWG URL standard: a special
scheme's host containing one of these makes the URL constructor throw. -/
def forbiddenHostChar (c : Char) : Bool :=
  c.toNat = 0 || c = '\t' || c = '\n' || c = '\r' || c = ' ' || c = '#' ||
  c = '/' || c = ':' || c = '<' || c = '>' || c = '?' || c = '@' || c = '[' ||
  c = '\\' || c = ']' || c = '^' || c = '|'

/-- An authority with its userinfo removed: everything after the last `@`. -/
def stripUserinfo (auth : List Char) : List Char :=
  if auth.contains '@' then (auth.reverse.takeWhile (fun c => c ≠ '@')).reverse
  else auth

/-- Host-and-port validation the URL constructor applies to the authority of
a special-scheme reference: after the userinfo, the host must be non-empty
and free of forbidden host code points, and a port, when present after a
colon, must be all digits. -/
def validAuthority (auth : List Char) : Bool :=
  let hostPort := stripUserinfo auth
  let host := hostPort.takeWhile (fun c => c ≠ ':')
  !host.isEmpty && host.all (fun c => !forbiddenHostChar c) &&
    (hostPort.length = host.length || (hostPort.drop (host.length + 1)).all Char.isDigit)

/-- Model of `new URL(src, origin).href` where `origin` is an http(s) origin
as produced by `urlOrigin`, with `none` modelling the `TypeError` throw that
the source's catch block turns into dropping the iframe source:
a protocol-relative reference takes the origin's scheme but must carry a
valid authority — `new URL("//", o)` and `new URL("//bad host/x", o)` throw —
while root-relative references join directly onto the origin and every other
schemeless reference resolves against the origin's root path `/`, neither of
which can throw; scheme-bearing references stand alone.  Declared gaps, none
exercised by any input in this development: dot-segment normalisation,
backslash-as-slash aliasing in relative references, IPv6 bracket hosts, the
2^16 port bound, IDNA/percent-decoding of hosts, and href re-serialisation of
scheme-bearing references (which `new URL` can also reject when malformed). -/
def urlResolve (src origin : String) : Option String :=
  if strStarts "//" src then
    if validAuthority ((src.toList.drop 2).takeWhile (fun c => !authTerm c)) then
      some (String.mk (origin.toList.takeWhile (· ≠ ':')) ++ ":" ++ src)
    else none
  else if strStarts "/" src then some (origin ++ src)
  else if hasScheme src then some src
  else some (origin ++ "/" ++ src)

/-- Case-insensitive literal prefix test (the iframe regex carries the `i`
flag). -/
def ciPrefixOf (pat : String) (s : List Char) : Bool :=
  (pat.toList.map Char.toLower).isPrefixOf (s.map Char.toLower)

/-- The `src=["']([^"']+)["']` tail of the iframe regex: expects a quote, a
non-empty run of non-quote characters (the captured source), and a closing
quote; returns the capture and the input remaining after the match. -/
def srcAttrCapture (s : List Char) : Option (List Char × List Char) :=
  match s with
  | [] => none
  | q :: rest =>
    if q = '"' || q = '\'' then
      let run := rest.takeWhile (fun c => c ≠ '"' ∧ c ≠ '\'')
      let rem := rest.drop run.length
      if run ≠ [] ∧ rem ≠ [] then some (run, rem.drop 1) else none
    else none

/-- Backtracking search for the `[^>]+src=...` part of the iframe regex at a
fixed match start: `t` is the text after the literal `<iframe`, and gaps are
tried longest-first (the greedy `[^>]+`), each gap being followed by a
case-insensitive `src=` and a quoted capture. -/
def findGap (t : List Char) : Nat → Option (List Char × List Char)
  | 0 => none
  | g + 1 =>
    if ciPrefixOf "src=" (t.drop (g + 1)) then
      match srcAttrCapture (t.drop (g + 1 + 4)) with
      | some r => some r
      | none => findGap t g
    else findGap t g

/-- One attempted match of `/<iframe[^>]+src=["']([^"']+)["']/i` anchored at
the head of `s`: the gap `[^>]+` may not cross the first `>` after the tag
name, and on success the captured source and the text after the closing quote
are returned. -/
def iframeMatchAt (s : List Char) : Option (List Char × List Char) :=
  if ciPrefixOf "<iframe" s then
    let t := s.drop 7
    findGap t (t.takeWhile (· ≠ '>')).length
  else none

/-- The global-regex scan loop of `extractIframeSrcs`
(gemini.service.js:523-526): successive non-overlapping matches, each search
resuming after the previous match's closing quote.  Fuelled by the text
length; every match consumes at least one character. -/
def iframeScanAux : Nat → List Char → List (List Char)
  | 0, _ => []
  | _, [] => []
  | fuel + 1, c :: rest =>
    match iframeMatchAt (c :: rest) with
    | some (src, rem) => src :: iframeScanAux fuel rem
    | none => iframeScanAux fuel rest

/-- All raw `src` attribute values captured by the iframe regex, in document
order. -/
def iframeScan (s : List Char) : List (List Char) :=
  iframeScanAux s.length s

/-- The skip test of gemini.service.js:530: inline data payloads, the script
pseudo-protocol and the empty-page sentinel are dropped. -/
def excludedSrc (src : String) : Bool :=
  strStarts "data:" src || strStarts "javascript:" src || src == "about:blank"

/-- The per-source body of the `extractIframeSrcs` while-loop
(gemini.service.js:527-546): skip excluded sources; convert a source that is
not already absolute http(s) by resolving it against the origin of the base
location, where the surrounding try/catch drops the source (warn and
continue) whenever either the base cannot be parsed or the resolution itself
throws; keep every other source verbatim. -/
def processSrcs (baseUrl : String) : List String → List String
  | [] => []
  | src :: rest =>
    if excludedSrc src then processSrcs baseUrl rest
    else if !strStarts "http://" src && !strStarts "https://" src then
      match urlOrigin baseUrl with
      | none => processSrcs baseUrl rest
      | some o =>
        match urlResolve src o with
        | none => processSrcs baseUrl rest
        | some abs => abs :: processSrcs baseUrl rest
    else src :: processSrcs baseUrl rest

/-- Embedding of `extractIframeSrcs` (gemini.service.js:521-549). -/
def extractIframeSrcs (html baseUrl : String) : List String :=
  processSrcs baseUrl ((iframeScan html.toList).map String.mk)

/-- Embedding of `fetchWithIframes` (gemini.service.js:437-492), with the network
abstracted as an oracle `fetchUrl` from location to fetched body or thrown
error message.  A failing main-document fetch propagates; each iframe fetch
failure is caught and recorded.  The zero-iframe branch returns no `stats`
record. -/
def fetchWithIframes (fetchUrl : String → Except String String) (url : String) :
    Except String FetchResult :=
  match fetchUrl url with
  | .error e => .error e
  | .ok mainHtml =>
    let iframeSrcs := extractIframeSrcs mainHtml url
    if iframeSrcs.length = 0 then
      .ok { mainHtml := mainHtml, iframes := [], combinedHtml := mainHtml, stats := none }
    else
      let iframeContents := iframeSrcs.map (fun src =>
        match fetchUrl src with
        | .ok content => { src := src, content := content, success := true, error := none }
        | .error e =>
          { src := src, content := "", success := false, error := some e : IframeContent })
      let combinedHtml := combineHtml mainHtml iframeContents
      let successfulIframes := (iframeContents.filter (·.success)).length
      .ok { mainHtml := mainHtml, iframes := iframeContents, combinedHtml := combinedHtml,
            stats := some { totalIframes := iframeSrcs.length,
                            successfulIframes := successfulIframes,
                            failedIframes := iframeSrcs.length - successfulIframes } }

/-- Round a JavaScript number to six decimal places: models
`parseFloat(x.toFixed(6))` (gemini.service.js:85-87,409-411); `toFixed` picks
the nearest multiple of `10⁻⁶`, ties toward `+∞`, exactly Mathlib `round`. -/
def roundTo6 (q : ℚ) : ℚ :=
  (round (q * 1000000) : ℤ) / 1000000

/-- Token-usage and cost record attached to every model reply
(gemini.service.js:81-88). -/
structure Usage where
  inputTokens : Nat
  outputTokens : Nat
  totalTokens : Nat
  inputCost : ℚ
  outputCost : ℚ
  totalCost : ℚ
deriving DecidableEq

/-- The raw cost computation of `callGeminiAPI` (gemini.service.js:69-71):
input rate $0.00125 per 1K tokens, output rate $0.005 per 1K tokens, total is
their sum.  Returns `(inputCost, outputCost, totalCost)`. -/
def computeCosts (inputTokens outputTokens : Nat) : ℚ × ℚ × ℚ :=
  let inputCost := ((inputTokens : ℚ) / 1000) * 0.00125
  let outputCost := ((outputTokens : ℚ) / 1000) * 0.005
  (inputCost, outputCost, inputCost + outputCost)

/-- The `usage` record of a successful `callGeminiAPI` reply
(gemini.service.js:60-88): token counts as reported by the endpoint, costs
from `computeCosts` rounded to six decimals. -/
def callGeminiUsage (inputTokens outputTokens totalTokens : Nat) : Usage :=
  { inputTokens := inputTokens, outputTokens := outputTokens, totalTokens := totalTokens,
    inputCost := roundTo6 (computeCosts inputTokens outputTokens).1,
    outputCost := roundTo6 (computeCosts inputTokens outputTokens).2.1,
    totalCost := roundTo6 (computeCosts inputTokens outputTokens).2.2 }

/-- A form descriptor as returned by the extraction phase.  The analyzer
treats it as an opaque value that is spread unchanged into its result, so
only an identifier is modelled. -/
structure Form where
  formId : String
deriving DecidableEq

/-- Result of the extraction phase (`extractForms`) that `analyzeFormsComplete`
consumes: the descriptor list and the extraction call's usage. -/
structure ExtractOut where
  forms : List Form
  usage : Usage
deriving DecidableEq

/-- Result of one `generateFieldValues` call: generated values, the reply's
`metadata` object, and the call's usage.  Values and metadata are modelled as
association lists, which is all the analyzer's plumbing needs. -/
structure GenOut where
  values : List (String × String)
  metadata : List (String × String)
  usage : Usage
deriving DecidableEq

/-- The `validationStatus` attached to a form: the generation reply's
`metadata` on success, `{error: message}` on a caught failure
(gemini.service.js:356,367). -/
inductive VStatus where
  | meta (m : List (String × String))
  | err (msg : String)
deriving DecidableEq

/-- One entry of the analyzer's `forms` output (gemini.service.js:353-369):
the original descriptor plus suggested values, validation status, and — only
on success — the value-generation call's usage (the
`valueGenerationPerformance` key is absent on failure, modelled as `none`). -/
structure FormWithValues where
  form : Form
  suggestedValues : Option (List (String × String))
  validationStatus : VStatus
  valueGenUsage : Option Usage
deriving DecidableEq

/-- A JavaScript number that may be the result of dividing by zero. -/
inductive JsNum where
  | finite (q : ℚ)
  | nan
  | inf
  | ninf
deriving DecidableEq

/-- JavaScript division on numbers, with `0/0 = NaN` and `±x/0 = ±Infinity`.
(The IEEE rounding of finite quotients is not modelled.) -/
def jsDiv (a b : ℚ) : JsNum :=
  if b = 0 then (if a = 0 then .nan else if 0 < a then .inf else .ninf)
  else .finite (a / b)

/-- Model of `Math.round`: nearest integer, ties toward `+∞`; `NaN` and infinities pass
through. -/
def jsRound : JsNum → JsNum
  | .finite q => .finite ((round q : ℤ) : ℚ)
  | x => x

/-- The `performance` record of a complete analysis (gemini.service.js:401-406). -/
structure Perf where
  extractionTime : Nat
  valueGenerationTime : Nat
  totalTime : Nat
  averageTimePerForm : JsNum
deriving DecidableEq

/-- The analyzer's return object (gemini.service.js:397-413); only the parts
the specification speaks about are modelled. -/
structure CompleteResult where
  forms : List FormWithValues
  performance : Perf
  totalUsage : Usage
deriving DecidableEq

/-- Field-wise accumulation step of the `totalUsage` reduce
(gemini.service.js:378-387). -/
def addUsage (acc u : Usage) : Usage :=
  { inputTokens := acc.inputTokens + u.inputTokens,
    outputTokens := acc.outputTokens + u.outputTokens,
    totalTokens := acc.totalTokens + u.totalTokens,
    inputCost := acc.inputCost + u.inputCost,
    outputCost := acc.outputCost + u.outputCost,
    totalCost := acc.totalCost + u.totalCost }

/-- Per-form body of the `Promise.all` map (gemini.service.js:350-370): a
successful generation populates values, metadata and usage; a caught failure
yields `suggestedValues: null` and an error status on that form alone. -/
def genStep (generate : Form → Except String GenOut) (form : Form) : FormWithValues :=
  match generate form with
  | .ok v =>
    { form := form, suggestedValues := some v.values,
      validationStatus := .meta v.metadata, valueGenUsage := some v.usage }
  | .error e =>
    { form := form, suggestedValues := none,
      validationStatus := .err e, valueGenUsage := none }

/-- Embedding of `analyzeFormsComplete` (gemini.service.js:336-418), with the two network
phases abstracted as oracles: `extractForms` is the already-settled outcome of
the extraction call, `generate` the outcome of each per-form value-generation
call, and the three measured wall-clock durations (milliseconds) are
parameters.  An extraction failure propagates; the `totalUsage` reduce starts
from the extraction usage and adds each form's recorded generation usage;
`averageTimePerForm` divides by the number of extracted forms. -/
def analyzeFormsComplete (extractForms : Except String ExtractOut)
    (generate : Form → Except String GenOut)
    (extractionTime valueGenerationTime totalTime : Nat) :
    Except String CompleteResult :=
  match extractForms with
  | .error e => .error e
  | .ok formsData =>
    let formsWithValues := formsData.forms.map (genStep generate)
    let totalUsage := formsWithValues.foldl
      (fun acc fw =>
        match fw.valueGenUsage with
        | some u => addUsage acc u
        | none => acc)
      formsData.usage
    .ok { forms := formsWithValues,
          performance :=
            { extractionTime := extractionTime,
              valueGenerationTime := valueGenerationTime,
              totalTime := totalTime,
              averageTimePerForm :=
                jsRound (jsDiv (valueGenerationTime : ℚ) (formsData.forms.length : ℚ)) },
          totalUsage :=
            { totalUsage with
              inputCost := roundTo6 totalUsage.inputCost,
              outputCost := roundTo6 totalUsage.outputCost,
              totalCost := roundTo6 totalUsage.totalCost } }

/-- Claim C1 counterexample: in the reply text
`"```json\nbad\n``` ```\n{"a":1}\n```"` the json-labelled fence is present
but its content `bad` is not valid JSON, and the later any-fence strategy
captures `{"a":1}`, which is valid — yet extraction fails, because the code
parses only the first matching fence's capture and never falls through to a
later strategy. -/
theorem C1_fence_no_fallback_counterexample :
    extractJson "```json\nbad\n``` ```\n\x7b\"a\":1\x7d\n```" = none ∧
    fenceCapture "```json\n" ("```json\nbad\n``` ```\n\x7b\"a\":1\x7d\n```".toList) =
      some "bad".toList ∧
    fenceCapture "```\n" ("```json\nbad\n``` ```\n\x7b\"a\":1\x7d\n```".toList) =
      some "\x7b\"a\":1\x7d".toList ∧
    jsonParse ("\x7b\"a\":1\x7d".toList) = some (Json.obj [("a", Json.num 1)]) := by
  refine ⟨rfl, rfl, rfl, rfl⟩

/-- Claim C1, amended: the parsing step of `extractForms` and
`generateFieldValues` tries the three strategies in order only to LOCATE the
JSON payload — json-labelled fence, then any fence, then the whole text; the
first fence regex that matches wins outright, and its captured content must
itself be valid JSON, otherwise the operation fails without falling back to a
later strategy.  The whole text is parsed exactly when neither fence regex
matches.  The three spec examples behave as stated. -/
theorem C1_extract_strategies_amended :
    (∀ (s : String) (cap : List Char),
        jsonFenceMatch s.toList = some cap → extractJson s = jsonParse cap) ∧
    (∀ s : String, jsonFenceMatch s.toList = none → extractJson s = jsonParse s.toList) ∧
    extractJson "prefix ```json\n\x7b\"a\":1\x7d\n``` suffix" =
      some (Json.obj [("a", Json.num 1)]) ∧
    extractJson "\x7b\"a\":1\x7d" = some (Json.obj [("a", Json.num 1)]) ∧
    extractJson "not json at all" = none := by
  refine ⟨?_, ?_, rfl, rfl, rfl⟩
  · intro s cap h
    simp only [extractJson, h]
  · intro s h
    simp only [extractJson, h]

/-- Witness for the hypotheses of `C1_extract_strategies_amended`, at the
spec's fenced example. -/
theorem C1_extract_strategies_witness :
    jsonFenceMatch ("prefix ```json\n\x7b\"a\":1\x7d\n``` suffix".toList) =
      some ("\x7b\"a\":1\x7d".toList) ∧
    extractJson "prefix ```json\n\x7b\"a\":1\x7d\n``` suffix" =
      jsonParse ("\x7b\"a\":1\x7d".toList) := by
  exact ⟨rfl, C1_extract_strategies_amended.1
    "prefix ```json\n\x7b\"a\":1\x7d\n``` suffix" ("\x7b\"a\":1\x7d".toList) rfl⟩

/-- Claim C2 counterexample: a URL whose document `<p>hi</p>` has no iframes
fetches successfully, `combinedHtml` equals `mainHtml` — but the returned
object carries no `stats` record at all (the zero-iframe branch omits the
key), so the claimed all-zero stats record is absent. -/
theorem C2_zero_iframe_counterexample :
    fetchWithIframes (fun _ => Except.ok "<p>hi</p>") "https://example.com/" =
      Except.ok { mainHtml := "<p>hi</p>", iframes := [], combinedHtml := "<p>hi</p>",
                  stats := none } ∧
    FetchResult.stats
        { mainHtml := "<p>hi</p>", iframes := [], combinedHtml := "<p>hi</p>", stats := none } ≠
      some { totalIframes := 0, successfulIframes := 0, failedIframes := 0 } := by
  exact ⟨rfl, by decide⟩

/-- Claim C2, amended: for every URL whose main-document fetch succeeds and
whose body yields no qualifying iframe sources, `fetchWithIframes` returns
`combinedHtml` identical to `mainHtml` (so `mainHtml` is trivially a prefix),
an empty iframe list, and NO stats record (`stats` is omitted in the
zero-iframe branch, rather than being an all-zero record). -/
theorem C2_zero_iframe_amended (f : String → Except String String) (url mainHtml : String)
    (hfetch : f url = Except.ok mainHtml)
    (hnone : extractIframeSrcs mainHtml url = []) :
    fetchWithIframes f url =
      Except.ok { mainHtml := mainHtml, iframes := [], combinedHtml := mainHtml,
                  stats := none } := by
  simp only [fetchWithIframes, hfetch, hnone]
  rfl

/-- Witness for `C2_zero_iframe_amended` at a concrete oracle and URL. -/
theorem C2_zero_iframe_witness :
    (fun _ : String => Except.ok (ε := String) "<p>hi</p>") "https://example.com/" =
        Except.ok "<p>hi</p>" ∧
    extractIframeSrcs "<p>hi</p>" "https://example.com/" = [] ∧
    fetchWithIframes (fun _ => Except.ok "<p>hi</p>") "https://example.com/" =
      Except.ok { mainHtml := "<p>hi</p>", iframes := [], combinedHtml := "<p>hi</p>",
                  stats := none } := by
  exact ⟨rfl, rfl, C2_zero_iframe_amended (fun _ => Except.ok "<p>hi</p>")
    "https://example.com/" "<p>hi</p>" rfl rfl⟩

/-- The text one iframe record contributes to the combined document: marker
plus body for a successful, non-empty fetch at (0-based) discovery index
`p.1`, nothing otherwise. -/
def iframePiece (p : Nat × IframeContent) : Option String :=
  if p.2.success && p.2.content != "" then some (ifrMarker (p.1 + 1) p.2.src ++ p.2.content)
  else none

/-- Concatenation of a list of strings. -/
def concatAll (l : List String) : String :=
  l.foldr (fun a b => a ++ b) ""

theorem concatAll_cons (x : String) (xs : List String) :
    concatAll (x :: xs) = x ++ concatAll xs := rfl

/-- The `combineHtml` fold, started anywhere, appends exactly the pieces of
the successful non-empty iframes. -/
theorem combineHtml_foldl_eq (l : List IframeContent) (n : Nat) (acc : String) :
    (List.enumFrom n l).foldl
      (fun combined p =>
        if p.2.success && p.2.content != "" then
          combined ++ ifrMarker (p.1 + 1) p.2.src ++ p.2.content
        else combined)
      acc
      = acc ++ concatAll ((List.enumFrom n l).filterMap iframePiece) := by
  induction l generalizing n acc with
  | nil => simp [concatAll]
  | cons a l ih =>
    rw [List.enumFrom_cons]
    simp only [List.foldl_cons, List.filterMap_cons, iframePiece]
    by_cases h : (a.success && a.content != "") = true
    · rw [if_pos h, if_pos h, ih, concatAll_cons]
      simp only [String.append_assoc]
    · rw [if_neg h, if_neg h, ih]

/-- Claim C5, amended: for every successful `fetchWithIframes` result,
`combinedHtml` equals `mainHtml` followed by, for each successfully fetched
iframe WITH A NON-EMPTY BODY, in discovery order, the marker comment naming
its 1-based index and source location followed by its body.  Failed fetches
contribute no text, and — the correction — a successful fetch whose body is
the empty string also contributes nothing, not even its marker (the source
tests `iframe.success && iframe.content`, and the empty string is falsy). -/
theorem C5_combined_assembly_amended (f : String → Except String String) (url : String)
    (r : FetchResult) (h : fetchWithIframes f url = Except.ok r) :
    r.combinedHtml = r.mainHtml ++ concatAll (r.iframes.enum.filterMap iframePiece) := by
  unfold fetchWithIframes at h
  match hf : f url with
  | .error e => rw [hf] at h; exact absurd h (by simp)
  | .ok mainHtml =>
    rw [hf] at h
    simp only at h
    by_cases hz : (extractIframeSrcs mainHtml url).length = 0
    · rw [if_pos hz] at h
      cases h
      simp [concatAll, List.enum]
    · rw [if_neg hz] at h
      cases h
      simp only [combineHtml, List.enum]
      exact combineHtml_foldl_eq _ 0 _

/-- Claim C5 counterexample: an iframe whose fetch SUCCEEDS with an empty body
contributes neither marker nor body — `combineHtml` tests
`iframe.success && iframe.content` and the empty string is falsy — so the
claimed "marker followed by that iframe's body for each successfully fetched
iframe" is violated: `combinedHtml` is bare `mainHtml`, not
`mainHtml ++ marker ++ ""`. -/
theorem C5_empty_body_counterexample :
    fetchWithIframes
        (fun u => if u = "http://m" then Except.ok "<iframe src=\"http://e\">" else Except.ok "")
        "http://m" =
      Except.ok { mainHtml := "<iframe src=\"http://e\">",
                  iframes := [{ src := "http://e", content := "", success := true, error := none }],
                  combinedHtml := "<iframe src=\"http://e\">",
                  stats := some { totalIframes := 1, successfulIframes := 1,
                                  failedIframes := 0 } } ∧
    "<iframe src=\"http://e\">" ≠
      "<iframe src=\"http://e\">" ++ ifrMarker 1 "http://e" ++ "" := by
  exact ⟨rfl, by decide⟩

/-- Witness for the hypotheses of `C5_combined_assembly_amended`: one iframe
fetched successfully with body `BODY` is appended after its marker. -/
theorem C5_combined_assembly_witness :
    fetchWithIframes
        (fun u => if u = "http://m" then Except.ok "<iframe src=\"http://e\">"
                  else Except.ok "BODY")
        "http://m" =
      Except.ok { mainHtml := "<iframe src=\"http://e\">",
                  iframes := [{ src := "http://e", content := "BODY", success := true,
                                error := none }],
                  combinedHtml := "<iframe src=\"http://e\">" ++ ifrMarker 1 "http://e" ++ "BODY",
                  stats := some { totalIframes := 1, successfulIframes := 1,
                                  failedIframes := 0 } } ∧
    ("<iframe src=\"http://e\">" ++ ifrMarker 1 "http://e" ++ "BODY" : String) =
      "<iframe src=\"http://e\">" ++
        concatAll
          (([{ src := "http://e", content := "BODY", success := true,
               error := none : IframeContent }].enum).filterMap iframePiece) := by
  refine ⟨rfl, ?_⟩
  exact C5_combined_assembly_amended
    (fun u => if u = "http://m" then Except.ok "<iframe src=\"http://e\">" else Except.ok "BODY")
    "http://m"
    { mainHtml := "<iframe src=\"http://e\">",
      iframes := [{ src := "http://e", content := "BODY", success := true, error := none }],
      combinedHtml := "<iframe src=\"http://e\">" ++ ifrMarker 1 "http://e" ++ "BODY",
      stats := some { totalIframes := 1, successfulIframes := 1, failedIframes := 0 } }
    rfl

/-- Claim C8: every `fetchWithIframes` result that carries a stats record
satisfies `successfulIframes + failedIframes = totalIframes` (the failure
count is computed as total minus successes, and successes never exceed the
total). -/
theorem C8_stats_consistency (f : String → Except String String) (url : String)
    (r : FetchResult) (s : FetchStats) (h : fetchWithIframes f url = Except.ok r)
    (hs : r.stats = some s) :
    s.successfulIframes + s.failedIframes = s.totalIframes := by
  unfold fetchWithIframes at h
  match hf : f url with
  | .error e => rw [hf] at h; exact absurd h (by simp)
  | .ok mainHtml =>
    rw [hf] at h
    simp only at h
    by_cases hz : (extractIframeSrcs mainHtml url).length = 0
    · rw [if_pos hz] at h
      cases h
      simp at hs
    · rw [if_neg hz] at h
      cases h
      simp only [Option.some.injEq] at hs
      cases hs
      exact Nat.add_sub_cancel'
        (le_trans (List.length_filter_le _ _) (le_of_eq (List.length_map _ _)))

/-- Witness for `C8_stats_consistency`: one discovered iframe whose fetch
fails yields stats `{total 1, successful 0, failed 1}`, and `0 + 1 = 1`. -/
theorem C8_stats_consistency_witness :
    fetchWithIframes
        (fun u => if u = "http://m" then Except.ok "<iframe src=\"http://e\">"
                  else Except.error "HTTP 500: Internal Server Error")
        "http://m" =
      Except.ok { mainHtml := "<iframe src=\"http://e\">",
                  iframes := [{ src := "http://e", content := "", success := false,
                                error := some "HTTP 500: Internal Server Error" }],
                  combinedHtml := "<iframe src=\"http://e\">",
                  stats := some { totalIframes := 1, successfulIframes := 0,
                                  failedIframes := 1 } } ∧
    0 + 1 = 1 := by
  refine ⟨rfl, ?_⟩
  exact C8_stats_consistency
    (fun u => if u = "http://m" then Except.ok "<iframe src=\"http://e\">"
              else Except.error "HTTP 500: Internal Server Error")
    "http://m"
    { mainHtml := "<iframe src=\"http://e\">",
      iframes := [{ src := "http://e", content := "", success := false,
                    error := some "HTTP 500: Internal Server Error" }],
      combinedHtml := "<iframe src=\"http://e\">",
      stats := some { totalIframes := 1, successfulIframes := 0, failedIframes := 1 } }
    { totalIframes := 1, successfulIframes := 0, failedIframes := 1 }
    rfl rfl

theorem takeWhile_append_false {α : Type} (pred : α → Bool) (l1 l2 : List α) (c : α)
    (h1 : ∀ a ∈ l1, pred a = true) (hc : pred c = false) :
    (l1 ++ c :: l2).takeWhile pred = l1 := by
  induction l1 with
  | nil => simp [List.takeWhile_cons, hc]
  | cons a l ih =>
    have ha := h1 a (by simp)
    rw [List.cons_append, List.takeWhile_cons, if_pos ha]
    exact congrArg (a :: ·) (ih fun x hx => h1 x (by simp [hx]))

/-- The origin of an https location is its scheme and host, independent of the
path that follows the host. -/
theorem urlOrigin_append_path (host p : String) (hne : host ≠ "")
    (hcl : ∀ c ∈ host.toList, c ≠ '/' ∧ c ≠ '?' ∧ c ≠ '#') :
    urlOrigin ("https://" ++ host ++ "/" ++ p) = some ("https://" ++ host) := by
  have hdata : ("https://" ++ host ++ "/" ++ p).toList
      = "https://".toList ++ (host.toList ++ '/' :: p.toList) := by
    simp [String.toList, String.data_append]
  have hstart : strStarts "https://" ("https://" ++ host ++ "/" ++ p) = true := by
    rw [strStarts, hdata]
    exact (List.isPrefixOf_iff_prefix).mpr (List.prefix_append _ _)
  have h8 : ("https://".toList).length = 8 := rfl
  have hdrop : ("https://" ++ host ++ "/" ++ p).toList.drop 8
      = host.toList ++ '/' :: p.toList := by
    rw [hdata, ← h8, List.drop_left]
  have htw : (host.toList ++ '/' :: p.toList).takeWhile
      (fun c => decide (c ≠ '/' ∧ c ≠ '?' ∧ c ≠ '#')) = host.toList := by
    refine takeWhile_append_false _ _ _ _ (fun a ha => ?_) (by decide)
    exact decide_eq_true (hcl a ha)
  have hlist : host.toList ≠ [] := fun hnil => hne (congrArg String.mk hnil)
  have hmk : String.mk host.toList = host := rfl
  rw [urlOrigin, if_pos hstart]
  simp only [hdrop, htw, hlist, if_neg, hmk]
  simp [hlist]

/-- The function `processSrcs` depends on the base location only through its origin. -/
theorem processSrcs_congr_origin (b1 b2 : String) (h : urlOrigin b1 = urlOrigin b2)
    (l : List String) : processSrcs b1 l = processSrcs b2 l := by
  induction l with
  | nil => rfl
  | cons src rest ih => simp only [processSrcs, h, ih]

/-- Claim C6: a discovered iframe source lacking a scheme is resolved against
the ORIGIN of the base location, not its full path: the spec's concrete
example holds, an https base's origin is scheme-plus-host regardless of the
path, and consequently the extracted source list is unchanged when only the
base location's path varies. -/
theorem C6_origin_only_resolution :
    extractIframeSrcs "<iframe src=\"/x\">" "https://example.com/a/b" =
      ["https://example.com/x"] ∧
    (∀ host p : String, host ≠ "" →
      (∀ c ∈ host.toList, c ≠ '/' ∧ c ≠ '?' ∧ c ≠ '#') →
      urlOrigin ("https://" ++ host ++ "/" ++ p) = some ("https://" ++ host)) ∧
    (∀ host p1 p2 html : String, host ≠ "" →
      (∀ c ∈ host.toList, c ≠ '/' ∧ c ≠ '?' ∧ c ≠ '#') →
      extractIframeSrcs html ("https://" ++ host ++ "/" ++ p1) =
        extractIframeSrcs html ("https://" ++ host ++ "/" ++ p2)) := by
  refine ⟨rfl, urlOrigin_append_path, ?_⟩
  intro host p1 p2 html hne hcl
  unfold extractIframeSrcs
  exact processSrcs_congr_origin _ _
    ((urlOrigin_append_path host p1 hne hcl).trans
      (urlOrigin_append_path host p2 hne hcl).symm) _

/-- Witness for the hypotheses of `C6_origin_only_resolution`: the spec's base
`https://example.com/a/b` against a path-free base with the same host. -/
theorem C6_origin_only_witness :
    urlOrigin "https://example.com/a/b" = some "https://example.com" ∧
    extractIframeSrcs "<iframe src=\"/x\">" "https://example.com/a/b" =
      extractIframeSrcs "<iframe src=\"/x\">" "https://example.com/" := by
  constructor
  · exact C6_origin_only_resolution.2.1 "example.com" "a/b" (by decide) (by decide)
  · exact C6_origin_only_resolution.2.2 "example.com" "a/b" "" "<iframe src=\"/x\">"
      (by decide) (by decide)

set_option maxRecDepth 16384

/-- The generation usage one form contributes to the `totalUsage` reduce: its
call's reported usage on success, nothing (all zeroes) on a caught failure,
which records no `valueGenerationPerformance`. -/
def usageOfGen (generate : Form → Except String GenOut) (f : Form) : Usage :=
  match generate f with
  | .ok v => v.usage
  | .error _ => { inputTokens := 0, outputTokens := 0, totalTokens := 0,
                  inputCost := 0, outputCost := 0, totalCost := 0 }

/-- A rational that is a whole number of micro-units, i.e. in the image of
`parseFloat(x.toFixed(6))` — every cost `callGeminiAPI` emits is one. -/
def Micro (q : ℚ) : Prop := ∃ n : ℤ, q = n / 1000000

theorem roundTo6_micro (q : ℚ) (h : Micro q) : roundTo6 q = q := by
  obtain ⟨n, rfl⟩ := h
  unfold roundTo6
  rw [div_mul_cancel₀ _ (by norm_num : (1000000 : ℚ) ≠ 0), round_intCast]

theorem micro_add {a b : ℚ} (ha : Micro a) (hb : Micro b) : Micro (a + b) := by
  obtain ⟨n, rfl⟩ := ha
  obtain ⟨m, rfl⟩ := hb
  exact ⟨n + m, by push_cast; ring⟩

theorem micro_listSum (l : List ℚ) (h : ∀ q ∈ l, Micro q) : Micro l.sum := by
  induction l with
  | nil => exact ⟨0, by simp⟩
  | cons a l ih =>
    rw [List.sum_cons]
    exact micro_add (h a (by simp)) (ih (fun q hq => h q (by simp [hq])))

theorem micro_callGemini (it ot tt : Nat) :
    Micro (callGeminiUsage it ot tt).inputCost ∧
    Micro (callGeminiUsage it ot tt).outputCost ∧
    Micro (callGeminiUsage it ot tt).totalCost := by
  refine ⟨⟨round ((computeCosts it ot).1 * 1000000), rfl⟩,
          ⟨round ((computeCosts it ot).2.1 * 1000000), rfl⟩,
          ⟨round ((computeCosts it ot).2.2 * 1000000), rfl⟩⟩

/-- The `totalUsage` reduce over the mapped forms, started from any
accumulator, adds each form's recorded generation usage field-wise. -/
theorem foldUsage_eq (generate : Form → Except String GenOut) (l : List Form) (acc : Usage) :
    (l.map (genStep generate)).foldl
      (fun acc fw =>
        match fw.valueGenUsage with
        | some u => addUsage acc u
        | none => acc)
      acc =
    { inputTokens := acc.inputTokens + (l.map (fun f => (usageOfGen generate f).inputTokens)).sum,
      outputTokens := acc.outputTokens + (l.map (fun f => (usageOfGen generate f).outputTokens)).sum,
      totalTokens := acc.totalTokens + (l.map (fun f => (usageOfGen generate f).totalTokens)).sum,
      inputCost := acc.inputCost + (l.map (fun f => (usageOfGen generate f).inputCost)).sum,
      outputCost := acc.outputCost + (l.map (fun f => (usageOfGen generate f).outputCost)).sum,
      totalCost := acc.totalCost + (l.map (fun f => (usageOfGen generate f).totalCost)).sum } := by
  induction l generalizing acc with
  | nil =>
    cases acc
    simp
  | cons f l ih =>
    simp only [List.map_cons, List.foldl_cons]
    cases hg : generate f with
    | ok v =>
      simp only [genStep, hg]
      rw [ih]
      simp [addUsage, usageOfGen, hg, Nat.add_assoc, add_assoc]
    | error e =>
      simp only [genStep, hg]
      rw [ih]
      simp [usageOfGen, hg]

/-- Claim C3: in `analyzeFormsComplete`, a failed value-generation call is
caught and recorded on that form alone — `suggestedValues` null and an
error `validationStatus` — while every sibling form is populated from its own
successful call; the output `forms` array has exactly one entry per extracted
descriptor, in the original extraction order. -/
theorem C3_partial_failure_isolation (fd : ExtractOut)
    (generate : Form → Except String GenOut) (t1 t2 t3 : Nat) :
    ∃ r, analyzeFormsComplete (Except.ok fd) generate t1 t2 t3 = Except.ok r ∧
      r.forms.length = fd.forms.length ∧
      ∀ (i : Nat) (form : Form), fd.forms[i]? = some form →
        ∃ out, r.forms[i]? = some out ∧ out.form = form ∧
          ((∃ e, generate form = Except.error e ∧ out.suggestedValues = none ∧
              out.validationStatus = VStatus.err e) ∨
           (∃ v, generate form = Except.ok v ∧ out.suggestedValues = some v.values ∧
              out.validationStatus = VStatus.meta v.metadata ∧
              out.valueGenUsage = some v.usage)) := by
  refine ⟨_, rfl, List.length_map _ _, ?_⟩
  intro i form hi
  have hmap : (fd.forms.map (genStep generate))[i]? = some (genStep generate form) := by
    rw [List.getElem?_map, hi, Option.map_some']
  refine ⟨genStep generate form, hmap, ?_, ?_⟩
  · cases hg : generate form with
    | ok v => simp [genStep, hg]
    | error e => simp [genStep, hg]
  · cases hg : generate form with
    | ok v =>
      exact Or.inr ⟨v, rfl, by simp [genStep, hg], by simp [genStep, hg], by simp [genStep, hg]⟩
    | error e =>
      exact Or.inl ⟨e, rfl, by simp [genStep, hg], by simp [genStep, hg]⟩

/-- Three sample form descriptors for exercising the analyzer. -/
def sampleForms : List Form :=
  [{ formId := "form-1" }, { formId := "form-2" }, { formId := "form-3" }]

/-- Sample extraction-call usage. -/
def sampleUsage : Usage :=
  { inputTokens := 10, outputTokens := 20, totalTokens := 30,
    inputCost := 0, outputCost := 0, totalCost := 0 }

/-- Sample generation oracle: fails on `form-2`, succeeds elsewhere. -/
def sampleGen : Form → Except String GenOut := fun f =>
  if f.formId = "form-2" then Except.error "boom"
  else Except.ok
    { values := [("fullName", "Sarah Johnson")],
      metadata := [("allValidationsSatisfied", "true")],
      usage := { inputTokens := 1, outputTokens := 2, totalTokens := 3,
                 inputCost := 0, outputCost := 0, totalCost := 0 } }

/-- Witness for `C3_partial_failure_isolation` at three descriptors with the
second forced to fail: three entries come back in order, the second is marked
failed, the first is populated. -/
theorem C3_partial_failure_witness :
    ∃ r, analyzeFormsComplete (Except.ok { forms := sampleForms, usage := sampleUsage })
        sampleGen 1 2 3 = Except.ok r ∧
      r.forms.length = 3 ∧
      (∃ out, r.forms[1]? = some out ∧ out.form = { formId := "form-2" } ∧
        out.suggestedValues = none ∧ out.validationStatus = VStatus.err "boom") ∧
      (∃ out, r.forms[0]? = some out ∧
        out.suggestedValues = some [("fullName", "Sarah Johnson")]) := by
  obtain ⟨r, hr, hlen, hget⟩ :=
    C3_partial_failure_isolation { forms := sampleForms, usage := sampleUsage } sampleGen 1 2 3
  refine ⟨r, hr, by rw [hlen]; rfl, ?_, ?_⟩
  · obtain ⟨out, ho, hform, hcase⟩ := hget 1 { formId := "form-2" } rfl
    rcases hcase with ⟨e, hg, hnone, herr⟩ | ⟨v, hg, -, -⟩
    · have hge : Except.error (α := GenOut) "boom" = Except.error e := by
        rw [← hg]; rfl
      cases hge
      exact ⟨out, ho, hform, hnone, herr⟩
    · rw [show sampleGen { formId := "form-2" } = Except.error "boom" from rfl] at hg
      exact absurd hg (by simp)
  · obtain ⟨out, ho, -, hcase⟩ := hget 0 { formId := "form-1" } rfl
    rcases hcase with ⟨e, hg, -, -⟩ | ⟨v, hg, hvals, -, -⟩
    · rw [show sampleGen { formId := "form-1" } = sampleGen { formId := "form-1" } from rfl] at hg
      exact absurd hg (by simp [sampleGen])
    · have hgv : sampleGen { formId := "form-1" } = Except.ok v := hg
      have : v.values = [("fullName", "Sarah Johnson")] := by
        have := congrArg (fun x => match x with
          | Except.ok w => GenOut.values w
          | Except.error _ => []) hgv
        simpa [sampleGen] using this.symm
      exact ⟨out, ho, this ▸ hvals⟩

/-- Claim C4: the analyzer's `totalUsage` sums token counts and costs across
the extraction call and every per-form value-generation call; a form whose
generation failed contributes zero (the catch branch records no usage, so
none is ever available from a failed call).  Token sums are exact; cost sums
pass through the final six-decimal rounding, which is the identity whenever
every contributing cost is a whole number of micro-units — as every cost
produced by `callGeminiAPI` is. -/
theorem C4_total_usage_aggregation (fd : ExtractOut)
    (generate : Form → Except String GenOut) (t1 t2 t3 : Nat) :
    ∃ r, analyzeFormsComplete (Except.ok fd) generate t1 t2 t3 = Except.ok r ∧
      r.totalUsage.inputTokens =
        fd.usage.inputTokens + (fd.forms.map (fun f => (usageOfGen generate f).inputTokens)).sum ∧
      r.totalUsage.outputTokens =
        fd.usage.outputTokens + (fd.forms.map (fun f => (usageOfGen generate f).outputTokens)).sum ∧
      r.totalUsage.totalTokens =
        fd.usage.totalTokens + (fd.forms.map (fun f => (usageOfGen generate f).totalTokens)).sum ∧
      r.totalUsage.inputCost =
        roundTo6 (fd.usage.inputCost +
          (fd.forms.map (fun f => (usageOfGen generate f).inputCost)).sum) ∧
      r.totalUsage.outputCost =
        roundTo6 (fd.usage.outputCost +
          (fd.forms.map (fun f => (usageOfGen generate f).outputCost)).sum) ∧
      r.totalUsage.totalCost =
        roundTo6 (fd.usage.totalCost +
          (fd.forms.map (fun f => (usageOfGen generate f).totalCost)).sum) ∧
      (Micro fd.usage.inputCost →
        (∀ f ∈ fd.forms, Micro ((usageOfGen generate f).inputCost)) →
        r.totalUsage.inputCost =
          fd.usage.inputCost + (fd.forms.map (fun f => (usageOfGen generate f).inputCost)).sum) ∧
      (Micro fd.usage.outputCost →
        (∀ f ∈ fd.forms, Micro ((usageOfGen generate f).outputCost)) →
        r.totalUsage.outputCost =
          fd.usage.outputCost + (fd.forms.map (fun f => (usageOfGen generate f).outputCost)).sum) ∧
      (Micro fd.usage.totalCost →
        (∀ f ∈ fd.forms, Micro ((usageOfGen generate f).totalCost)) →
        r.totalUsage.totalCost =
          fd.usage.totalCost + (fd.forms.map (fun f => (usageOfGen generate f).totalCost)).sum) := by
  have hfold := foldUsage_eq generate fd.forms fd.usage
  refine ⟨_, rfl, ?_, ?_, ?_, ?_, ?_, ?_, ?_, ?_, ?_⟩
  · show ((fd.forms.map (genStep generate)).foldl _ fd.usage).inputTokens = _
    rw [hfold]
  · show ((fd.forms.map (genStep generate)).foldl _ fd.usage).outputTokens = _
    rw [hfold]
  · show ((fd.forms.map (genStep generate)).foldl _ fd.usage).totalTokens = _
    rw [hfold]
  · show roundTo6 ((fd.forms.map (genStep generate)).foldl _ fd.usage).inputCost = _
    rw [hfold]
  · show roundTo6 ((fd.forms.map (genStep generate)).foldl _ fd.usage).outputCost = _
    rw [hfold]
  · show roundTo6 ((fd.forms.map (genStep generate)).foldl _ fd.usage).totalCost = _
    rw [hfold]
  · intro hm hf
    show roundTo6 ((fd.forms.map (genStep generate)).foldl _ fd.usage).inputCost = _
    rw [hfold]
    refine roundTo6_micro _ (micro_add hm (micro_listSum _ ?_))
    intro q hq
    obtain ⟨f, hfm, rfl⟩ := List.mem_map.mp hq
    exact hf f hfm
  · intro hm hf
    show roundTo6 ((fd.forms.map (genStep generate)).foldl _ fd.usage).outputCost = _
    rw [hfold]
    refine roundTo6_micro _ (micro_add hm (micro_listSum _ ?_))
    intro q hq
    obtain ⟨f, hfm, rfl⟩ := List.mem_map.mp hq
    exact hf f hfm
  · intro hm hf
    show roundTo6 ((fd.forms.map (genStep generate)).foldl _ fd.usage).totalCost = _
    rw [hfold]
    refine roundTo6_micro _ (micro_add hm (micro_listSum _ ?_))
    intro q hq
    obtain ⟨f, hfm, rfl⟩ := List.mem_map.mp hq
    exact hf f hfm

/-- Witness for the `Micro` hypotheses of `C4_total_usage_aggregation`, at the
three sample descriptors (second generation fails): tokens
`10 + (1 + 0 + 1) = 12`, costs all zero. -/
theorem C4_total_usage_witness :
    ∃ r, analyzeFormsComplete (Except.ok { forms := sampleForms, usage := sampleUsage })
        sampleGen 1 2 3 = Except.ok r ∧
      r.totalUsage.inputTokens = 12 ∧ r.totalUsage.inputCost = 0 := by
  obtain ⟨r, hr, h1, -, -, -, -, -, hc, -, -⟩ :=
    C4_total_usage_aggregation { forms := sampleForms, usage := sampleUsage } sampleGen 1 2 3
  refine ⟨r, hr, ?_, ?_⟩
  · rw [h1]; rfl
  · have hf : ∀ f ∈ ({ forms := sampleForms, usage := sampleUsage } : ExtractOut).forms,
        Micro ((usageOfGen sampleGen f).inputCost) := by
      intro f hmem
      simp only [sampleForms] at hmem
      fin_cases hmem <;> exact ⟨0, by simp [usageOfGen, sampleGen]⟩
    rw [hc ⟨0, by norm_num [sampleUsage]⟩ hf]
    rw [show (List.map (fun f => (usageOfGen sampleGen f).inputCost)
        ({ forms := sampleForms, usage := sampleUsage } : ExtractOut).forms) = [0, 0, 0] from rfl]
    rw [show sampleUsage.inputCost = 0 from rfl]
    simp

/-- Claim C10: the average-time-per-form division in `analyzeFormsComplete` is
unguarded — with an empty extracted `forms` list it computes
`Math.round(valueGenerationTime / 0)`, so the returned
`averageTimePerForm` is not a finite number (`NaN` when the elapsed time is
zero, `Infinity` otherwise) even though the analysis completes successfully. -/
theorem C10_unguarded_average (fd : ExtractOut) (generate : Form → Except String GenOut)
    (t1 t2 t3 : Nat) (hempty : fd.forms = []) :
    ∃ r, analyzeFormsComplete (Except.ok fd) generate t1 t2 t3 = Except.ok r ∧
      (∀ q : ℚ, r.performance.averageTimePerForm ≠ JsNum.finite q) ∧
      (r.performance.averageTimePerForm = JsNum.nan ∨
        r.performance.averageTimePerForm = JsNum.inf) := by
  have key : jsRound (jsDiv (t2 : ℚ) ((fd.forms.length : ℚ))) = JsNum.nan ∨
      jsRound (jsDiv (t2 : ℚ) ((fd.forms.length : ℚ))) = JsNum.inf := by
    rw [hempty]
    simp only [List.length_nil, Nat.cast_zero, jsDiv, if_pos rfl]
    by_cases ht : (t2 : ℚ) = 0
    · rw [if_pos ht]; exact Or.inl rfl
    · rw [if_neg ht, if_pos (lt_of_le_of_ne (Nat.cast_nonneg t2) (Ne.symm ht))]
      exact Or.inr rfl
  obtain h | h := key
  · exact ⟨_, rfl, fun q hq => JsNum.noConfusion (h.symm.trans hq), Or.inl h⟩
  · exact ⟨_, rfl, fun q hq => JsNum.noConfusion (h.symm.trans hq), Or.inr h⟩

/-- Witness for the empty-extraction hypothesis of `C10_unguarded_average`:
zero forms with five milliseconds of (measured) generation time make the
analysis succeed with a non-finite average. -/
theorem C10_unguarded_average_witness :
    ∃ r, analyzeFormsComplete (Except.ok { forms := [], usage := sampleUsage })
        sampleGen 1 5 6 = Except.ok r ∧
      (r.performance.averageTimePerForm = JsNum.nan ∨
        r.performance.averageTimePerForm = JsNum.inf) := by
  obtain ⟨r, hr, -, hor⟩ :=
    C10_unguarded_average { forms := [], usage := sampleUsage } sampleGen 1 5 6 rfl
  exact ⟨r, hr, hor⟩

/-- Claim C9: `callGeminiAPI` computes `inputCost = (inputTokens/1000) ×
0.00125`, `outputCost = (outputTokens/1000) × 0.005` and
`totalCost = inputCost + outputCost`, with the fixed input rate strictly
below the fixed output rate; for 2000 input and 1000 output tokens the
reported totals are `0.0025`, `0.005` and `0.0025 + 0.005 = 0.0075`. -/
theorem C9_cost_computation :
    (∀ it ot : Nat, computeCosts it ot =
        (((it : ℚ) / 1000) * 0.00125, ((ot : ℚ) / 1000) * 0.005,
          ((it : ℚ) / 1000) * 0.00125 + ((ot : ℚ) / 1000) * 0.005)) ∧
    (0.00125 : ℚ) < 0.005 ∧
    (callGeminiUsage 2000 1000 3000).inputCost = 0.0025 ∧
    (callGeminiUsage 2000 1000 3000).outputCost = 0.005 ∧
    (callGeminiUsage 2000 1000 3000).totalCost = 0.0075 ∧
    (0.0025 + 0.005 : ℚ) = 0.0075 := by
  refine ⟨fun it ot => rfl, by norm_num, ?_, ?_, ?_, by norm_num⟩
  · show roundTo6 (((2000 : ℚ) / 1000) * 0.00125) = 0.0025
    rw [show (((2000 : ℚ) / 1000) * 0.00125) = (2500 : ℤ) / 1000000 by norm_num]
    rw [roundTo6_micro _ ⟨2500, rfl⟩]
    norm_num
  · show roundTo6 (((1000 : ℚ) / 1000) * 0.005) = 0.005
    rw [show (((1000 : ℚ) / 1000) * 0.005) = (5000 : ℤ) / 1000000 by norm_num]
    rw [roundTo6_micro _ ⟨5000, rfl⟩]
    norm_num
  · show roundTo6 (((2000 : ℚ) / 1000) * 0.00125 + ((1000 : ℚ) / 1000) * 0.005) = 0.0075
    rw [show (((2000 : ℚ) / 1000) * 0.00125 + ((1000 : ℚ) / 1000) * 0.005)
        = (7500 : ℤ) / 1000000 by norm_num]
    rw [roundTo6_micro _ ⟨7500, rfl⟩]
    norm_num
